import Mathlib

set_option maxRecDepth 20000

/- Shallow embedding of the procedural audio engine `SoundEngine` of src/app.js
   (the IIFE at lines 42-317; src/unnamed/part_000 holds a comment-annotated copy
   of the same code).

   Conventions of the embedding:
   * time is in integer milliseconds (the source uses seconds as floats; every
     literal in the engine is a multiple of 10 ms);
   * frequencies are in centihertz (source hertz times 100, e.g. 130.81 -> 13081);
   * volumes are in thousandths (source gain 0.08 -> 80);
   * the Web Audio oscillator / buffer-source nodes are modelled as `Voice`
     records carried in a ghost append-only journal `allVoices`; the source's
     mutable arrays `activeOscillators` and `bgOscillators` are lists of voice
     ids into that journal;
   * `setInterval` handles are modelled as records holding the installation time
     and period; time advances one millisecond at a time through `elapse1`,
     which fires due intervals and runs the `onended` removal of naturally
     ended voices;
   * exceptions are modelled with `Except EngineState EngineState`: an `error`
     carries the state at the throw point (JavaScript keeps mutations done
     before a throw), and the source's try/catch blocks become `caught`;
   * the single recognized failure is an unavailable audio backend
     (`audioOk = false`), which makes context acquisition throw, exactly where
     the source's `new AudioContext()` would;
   * `origin` on a voice and the counter `hbUnits` are ghost instrumentation
     that records which recipe created a voice and how many audible heartbeat
     units have fired; they influence no behavior. -/

inductive Waveform
  | sine
  | square
  | sawtooth
  | triangle
  | noiseBurst
  deriving DecidableEq, Repr

inductive MusicType
  | lobby
  | suspense
  deriving DecidableEq, Repr

/-- Ghost tag: which recipe of the engine created a voice. -/
inductive Origin
  | clickFx
  | correctFx
  | wrongFx
  | tickFx
  | heartbeatFx
  | lightBeepFx
  | goBurstFx
  | falseStartFx
  | fanfareFx
  | lobbyPluck
  | lobbyHarmonic
  | lobbyNoise
  | suspenseDrone
  | suspenseShimmer
  deriving DecidableEq, Repr

def Origin.isLobby : Origin → Bool
  | Origin.lobbyPluck => true
  | Origin.lobbyHarmonic => true
  | Origin.lobbyNoise => true
  | _ => false

/-- One synthesized tone: an oscillator (or noise buffer source) plus its gain
envelope, as scheduled by the source. `forcedStopAt` records a forced `o.stop()`
call made before the natural end (`none` while unforced). -/
structure Voice where
  id : Nat
  wave : Waveform
  freq : Nat
  rampTo : Option Nat
  vol : Nat
  schedStart : Nat
  schedStop : Nat
  origin : Origin
  forcedStopAt : Option Nat
  deriving DecidableEq, Repr

/-- A `setInterval` handle: `heartbeatInterval` in the source. -/
structure IntervalRec where
  installedAt : Nat
  period : Nat
  deriving DecidableEq, Repr

/-- The `bgInterval` handle; `mode` is the music type captured by the
`playNote` closure handed to `setInterval`. -/
structure BgIntervalRec where
  installedAt : Nat
  period : Nat
  mode : MusicType
  deriving DecidableEq, Repr

/-- The module-level mutable state of the `SoundEngine` closure, plus the clock
(`now`), the backend-availability flag (`audioOk`) and the ghost journal. -/
structure EngineState where
  now : Nat
  audioOk : Bool
  ctxCreated : Bool
  muted : Bool
  nextId : Nat
  allVoices : List Voice
  activeOscillators : List Nat
  bgOscillators : List Nat
  bgPlaying : Bool
  currentMusicType : Option MusicType
  heartbeatInterval : Option IntervalRec
  bgInterval : Option BgIntervalRec
  bgStep : Nat
  hbUnits : Nat
  deriving DecidableEq, Repr

abbrev ExS := Except EngineState EngineState

/-- Runs a fallible body under a `try { ... } catch (e) { }`: the error state is
kept, the exception is discarded. -/
def caught (f : EngineState → ExS) (s : EngineState) : EngineState :=
  match f s with
  | Except.ok t => t
  | Except.error t => t

/-- `getCtx()`: lazily creates the audio context and resumes it if suspended;
`new AudioContext()` throws when the platform audio backend is unavailable. -/
def getCtx (s : EngineState) : ExS :=
  if s.audioOk then Except.ok { s with ctxCreated := true }
  else Except.error s

/-- Which registry array a freshly created voice is pushed onto:
`activeOscillators`, `bgOscillators`, or none (the source never pushes the
lobby noise burst or the suspense shimmer oscillator anywhere). -/
inductive Reg
  | effects
  | bg
  | untracked
  deriving DecidableEq, Repr

/-- Creating and starting one node: appends the voice to the ghost journal and
pushes its id onto the selected registry array. -/
def addVoice (s : EngineState) (w : Waveform) (freq : Nat) (rampTo : Option Nat)
    (vol : Nat) (start stop : Nat) (og : Origin) (reg : Reg) : EngineState :=
  let v : Voice :=
    { id := s.nextId, wave := w, freq := freq, rampTo := rampTo, vol := vol,
      schedStart := start, schedStop := stop, origin := og, forcedStopAt := none }
  { s with
    nextId := s.nextId + 1,
    allVoices := s.allVoices ++ [v],
    activeOscillators :=
      if reg = Reg.effects then s.activeOscillators ++ [v.id] else s.activeOscillators,
    bgOscillators :=
      if reg = Reg.bg then s.bgOscillators ++ [v.id] else s.bgOscillators }

/-- Body of `osc(type, freq, duration, volume = 0.1, rampFreq = null)` inside
its try block: acquire the context, build oscillator plus gain envelope, start
at `currentTime`, stop at `currentTime + duration`, push onto
`activeOscillators` and self-remove on `onended`. `og` is ghost. -/
def rawOsc (w : Waveform) (freq dur : Nat) (vol : Nat) (rampTo : Option Nat)
    (og : Origin) (s : EngineState) : ExS := do
  let s1 ← getCtx s
  pure (addVoice s1 w freq rampTo vol s1.now (s1.now + dur) og Reg.effects)

/-- `osc`: no-op when muted, body wrapped in try/catch. -/
def osc (w : Waveform) (freq dur : Nat) (vol : Nat := 100)
    (rampTo : Option Nat := none) (og : Origin := Origin.clickFx)
    (s : EngineState) : EngineState :=
  if s.muted then s else caught (rawOsc w freq dur vol rampTo og) s

/-- `click()`: sine, 1000 Hz, 50 ms, volume 0.08. -/
def click (s : EngineState) : EngineState :=
  osc Waveform.sine 100000 50 80 none Origin.clickFx s

/-- Try-block body of `correct()`: two sine notes at 523 and 784 Hz, the second
offset 80 ms, each 120 ms long, volume 0.12, phase-locked to one capture of
`currentTime`. -/
def rawCorrect (s : EngineState) : ExS := do
  let s1 ← getCtx s
  let t := s1.now
  let s2 := addVoice s1 Waveform.sine 52300 none 120 t (t + 120) Origin.correctFx Reg.effects
  pure (addVoice s2 Waveform.sine 78400 none 120 (t + 80) (t + 80 + 120) Origin.correctFx Reg.effects)

/-- `correct()`. -/
def correct (s : EngineState) : EngineState :=
  if s.muted then s else caught rawCorrect s

/-- `wrong()`: sawtooth, 200 Hz, 250 ms, volume 0.1. -/
def wrong (s : EngineState) : EngineState :=
  osc Waveform.sawtooth 20000 250 100 none Origin.wrongFx s

/-- `tick()`: sine, 800 Hz, 30 ms, volume 0.06. -/
def tick (s : EngineState) : EngineState :=
  osc Waveform.sine 80000 30 60 none Origin.tickFx s

/-- Try-block body of `heartbeat()`: two 60 Hz sine thumps, the second delayed
150 ms, each 150 ms long, volume 0.2. The ghost counter `hbUnits` counts the
audible heartbeat units. -/
def rawHeartbeat (s : EngineState) : ExS := do
  let s1 ← getCtx s
  let t := s1.now
  let s2 := addVoice s1 Waveform.sine 6000 none 200 t (t + 150) Origin.heartbeatFx Reg.effects
  let s3 := addVoice s2 Waveform.sine 6000 none 200 (t + 150) (t + 150 + 150) Origin.heartbeatFx Reg.effects
  pure { s3 with hbUnits := s3.hbUnits + 1 }

/-- `heartbeat()`. -/
def heartbeat (s : EngineState) : EngineState :=
  if s.muted then s else caught rawHeartbeat s

/-- `startHeartbeatLoop()`: no-op when the interval handle is set; otherwise one
immediate heartbeat, then `setInterval(() => this.heartbeat(), 800)`. -/
def startHeartbeatLoop (s : EngineState) : EngineState :=
  if s.heartbeatInterval.isSome then s
  else
    let s1 := heartbeat s
    { s1 with heartbeatInterval := some { installedAt := s1.now, period := 800 } }

/-- `stopHeartbeatLoop()`: clears the interval when set. -/
def stopHeartbeatLoop (s : EngineState) : EngineState :=
  if s.heartbeatInterval.isSome then { s with heartbeatInterval := none } else s

/-- `lightBeep()`: sine, 440 Hz, 100 ms, volume 0.1. -/
def lightBeep (s : EngineState) : EngineState :=
  osc Waveform.sine 44000 100 100 none Origin.lightBeepFx s

/-- `goBurst()`: sine ramping 1200 Hz down to 600 Hz over 300 ms, volume 0.15. -/
def goBurst (s : EngineState) : EngineState :=
  osc Waveform.sine 120000 300 150 (some 60000) Origin.goBurstFx s

/-- `falseStart()`: square, 150 Hz, 500 ms, volume 0.12. -/
def falseStart (s : EngineState) : EngineState :=
  osc Waveform.square 15000 500 120 none Origin.falseStartFx s

/-- Try-block body of `fanfare()`: four sine notes (C5 E5 G5 C6), note `i`
starting at `t + i * 120` ms and stopping 200 ms later, peak volume 0.12. -/
def rawFanfare (s : EngineState) : ExS := do
  let s1 ← getCtx s
  let t := s1.now
  let s2 := addVoice s1 Waveform.sine 52300 none 120 t (t + 200) Origin.fanfareFx Reg.effects
  let s3 := addVoice s2 Waveform.sine 65900 none 120 (t + 120) (t + 120 + 200) Origin.fanfareFx Reg.effects
  let s4 := addVoice s3 Waveform.sine 78400 none 120 (t + 240) (t + 240 + 200) Origin.fanfareFx Reg.effects
  pure (addVoice s4 Waveform.sine 104700 none 120 (t + 360) (t + 360 + 200) Origin.fanfareFx Reg.effects)

/-- `fanfare()`. -/
def fanfare (s : EngineState) : EngineState :=
  if s.muted then s else caught rawFanfare s

/-- The 16-note lobby arpeggio sequence (Cmaj, Gmaj, Am, Fmaj), centihertz. -/
def lobbySequence : List Nat :=
  [13081, 16481, 19600, 26163,
   9800, 14683, 19600, 24694,
   11000, 16481, 22000, 26163,
   8731, 13081, 19600, 22000]

/-- The 8-value suspense bass-pulse sequence, centihertz. -/
def suspenseSequence : List Nat :=
  [5500, 8241, 11000, 13081, 5500, 7342, 11000, 14683]

def sequenceOf : MusicType → List Nat
  | MusicType.lobby => lobbySequence
  | MusicType.suspense => suspenseSequence

/-- Step interval: 250 ms for lobby, 1500 ms for suspense. -/
def intervalOf : MusicType → Nat
  | MusicType.lobby => 250
  | MusicType.suspense => 1500

/-- `playGuitarPluck(f, vol, dcy)`: triangle fundamental and one-octave triangle
harmonic at 40 percent volume, both stopped at `dcy`, pushed onto
`bgOscillators`; plus a 20 ms white-noise burst at 20 percent volume that is
started but never pushed onto any registry. -/
def playGuitarPluck (f vol dcy : Nat) (s : EngineState) : EngineState :=
  let s1 := addVoice s Waveform.triangle f none vol s.now (s.now + dcy) Origin.lobbyPluck Reg.bg
  let s2 := addVoice s1 Waveform.triangle (f * 2) none (vol * 4 / 10) s1.now (s1.now + dcy) Origin.lobbyHarmonic Reg.bg
  addVoice s2 Waveform.noiseBurst 0 none (vol * 2 / 10) s2.now (s2.now + 20) Origin.lobbyNoise Reg.untracked

/-- The `playNote` closure created by `startBgMusic`: captures the music type
(hence sequence and interval); reads and advances the shared `bgStep`. In
suspense mode, every 4th step starts an extra shimmer oscillator at four times
the step frequency that is never pushed onto `bgOscillators`; the drone itself
is pushed. -/
def playNote (ty : MusicType) (s : EngineState) : EngineState :=
  if s.muted || !s.bgPlaying then s
  else
    let freq := (sequenceOf ty).getD (s.bgStep % (sequenceOf ty).length) 0
    let s' :=
      match ty with
      | MusicType.lobby => playGuitarPluck freq 40 3000 s
      | MusicType.suspense =>
          let sSh :=
            if s.bgStep % 4 = 0 then
              addVoice s Waveform.sine (freq * 4) none 15 s.now (s.now + 4000) Origin.suspenseShimmer Reg.untracked
            else s
          addVoice sSh Waveform.sine freq none 50 sSh.now (sSh.now + 4000) Origin.suspenseDrone Reg.bg
    { s' with bgStep := s'.bgStep + 1 }

/-- Effect of one `o.stop()` call on one node record: a voice still sounding is
truncated at `now`; stopping an already-ended node has no effect. -/
def markOne (vid now : Nat) (v : Voice) : Voice :=
  if v.id = vid ∧ v.forcedStopAt = none ∧ now < v.schedStop then
    { v with forcedStopAt := some now }
  else v

/-- One `o.stop()` call on the node with id `vid` (the source additionally
guards each such call with its own try/catch). -/
def markStopped (vid : Nat) (now : Nat) (vs : List Voice) : List Voice :=
  vs.map (markOne vid now)

/-- `arr.forEach(o => { try { o.stop(); } catch (e) { } })` over a registry. -/
def stopVoices (l : List Nat) (now : Nat) (vs : List Voice) : List Voice :=
  l.foldl (fun acc vid => markStopped vid now acc) vs

/-- `stopBgMusic()`: clear `bgInterval`, force-stop every node in
`bgOscillators`, empty that array, clear `bgPlaying` and `currentMusicType`. -/
def stopBgMusic (s : EngineState) : EngineState :=
  let s1 := if s.bgInterval.isSome then { s with bgInterval := none } else s
  { s1 with
    allVoices := stopVoices s1.bgOscillators s1.now s1.allVoices,
    bgOscillators := [],
    bgPlaying := false,
    currentMusicType := none }

/-- `stopAll()`: stop the heartbeat loop, stop background music, force-stop
every node in `activeOscillators`, empty that array. -/
def stopAll (s : EngineState) : EngineState :=
  let s1 := stopHeartbeatLoop s
  let s2 := stopBgMusic s1
  { s2 with
    allVoices := stopVoices s2.activeOscillators s2.now s2.allVoices,
    activeOscillators := [] }

/-- `toggleMute()`: flip the flag, `stopAll()` when the flip muted the engine,
return the new flag. -/
def toggleMute (s : EngineState) : EngineState × Bool :=
  let s1 := { s with muted := !s.muted }
  let s2 := if s1.muted then stopAll s1 else s1
  (s2, s1.muted)

/-- Try-block body of `startBgMusic(type)` after the guard and stop: acquire
the context, raise `bgPlaying`, record the type, reset `bgStep`, play the first
note immediately, install `bgInterval`. -/
def rawStartBg (ty : MusicType) (s : EngineState) : ExS := do
  let s1 ← getCtx s
  let s2 := { s1 with bgPlaying := true, currentMusicType := some ty, bgStep := 0 }
  let s3 := playNote ty s2
  pure { s3 with bgInterval := some { installedAt := s3.now, period := intervalOf ty, mode := ty } }

/-- `startBgMusic(type = 'lobby')`: no-op when muted; no-op when the same type
is already playing; otherwise stop a playing session first, then run the
try/catch-wrapped body. -/
def startBgMusic (ty : MusicType) (s : EngineState) : EngineState :=
  if s.muted then s
  else if s.bgPlaying ∧ s.currentMusicType = some ty then s
  else caught (rawStartBg ty) (if s.bgPlaying then stopBgMusic s else s)

/-- Whether the node with id `vid` is still sounding: present in the journal,
never force-stopped, natural end still ahead of the clock. -/
def idLive (s : EngineState) (vid : Nat) : Bool :=
  match s.allVoices.find? (fun v => v.id == vid) with
  | some v => v.forcedStopAt.isNone && decide (s.now < v.schedStop)
  | none => false

/-- The `onended` callbacks: a voice that has ended removes itself from the
registry arrays. -/
def expireVoices (s : EngineState) : EngineState :=
  { s with
    activeOscillators := s.activeOscillators.filter (fun vid => idLive s vid),
    bgOscillators := s.bgOscillators.filter (fun vid => idLive s vid) }

/-- Fire the heartbeat `setInterval` callback if one is due at the current
millisecond: `setInterval(f, p)` installed at time `i` runs `f` at
`i + p, i + 2p, ...`. -/
def fireHeartbeat (s : EngineState) : EngineState :=
  match s.heartbeatInterval with
  | none => s
  | some iv =>
      if iv.installedAt < s.now ∧ (s.now - iv.installedAt) % iv.period = 0 then
        heartbeat s
      else s

/-- Fire the background `setInterval` callback (the captured `playNote`
closure) if one is due at the current millisecond. -/
def fireBg (s : EngineState) : EngineState :=
  match s.bgInterval with
  | none => s
  | some iv =>
      if iv.installedAt < s.now ∧ (s.now - iv.installedAt) % iv.period = 0 then
        playNote iv.mode s
      else s

/-- One millisecond of wall-clock time: advance the clock, run due interval
callbacks, run the `onended` self-removals. -/
def elapse1 (s : EngineState) : EngineState :=
  expireVoices (fireBg (fireHeartbeat { s with now := s.now + 1 }))

/-- `n` milliseconds of wall-clock time. -/
def elapse : Nat → EngineState → EngineState
  | 0, s => s
  | n + 1, s => elapse n (elapse1 s)

/-- The public engine interface plus the passage of one millisecond. -/
inductive Ev
  | evClick
  | evCorrect
  | evWrong
  | evTick
  | evHeartbeat
  | evStartHB
  | evStopHB
  | evLightBeep
  | evGoBurst
  | evFalseStart
  | evFanfare
  | evStartBg (ty : MusicType)
  | evStopBg
  | evToggleMute
  | evStopAll
  | evElapse
  deriving DecidableEq, Repr

def step : Ev → EngineState → EngineState
  | Ev.evClick, s => click s
  | Ev.evCorrect, s => correct s
  | Ev.evWrong, s => wrong s
  | Ev.evTick, s => tick s
  | Ev.evHeartbeat, s => heartbeat s
  | Ev.evStartHB, s => startHeartbeatLoop s
  | Ev.evStopHB, s => stopHeartbeatLoop s
  | Ev.evLightBeep, s => lightBeep s
  | Ev.evGoBurst, s => goBurst s
  | Ev.evFalseStart, s => falseStart s
  | Ev.evFanfare, s => fanfare s
  | Ev.evStartBg ty, s => startBgMusic ty s
  | Ev.evStopBg, s => stopBgMusic s
  | Ev.evToggleMute, s => (toggleMute s).1
  | Ev.evStopAll, s => stopAll s
  | Ev.evElapse, s => elapse1 s

def run (evs : List Ev) (s : EngineState) : EngineState :=
  evs.foldl (fun t e => step e t) s

/-- The module state right after the IIFE runs, with backend availability
`ok`. -/
def initState (ok : Bool) : EngineState :=
  { now := 0, audioOk := ok, ctxCreated := false, muted := false, nextId := 0,
    allVoices := [], activeOscillators := [], bgOscillators := [],
    bgPlaying := false, currentMusicType := none, heartbeatInterval := none,
    bgInterval := none, bgStep := 0, hbUnits := 0 }

/- ===================== Helper lemmas ===================== -/

theorem stopHeartbeatLoop_eq (s : EngineState) :
    stopHeartbeatLoop s = { s with heartbeatInterval := none } := by
  unfold stopHeartbeatLoop
  by_cases h : s.heartbeatInterval.isSome
  · simp [h]
  · rw [Option.not_isSome_iff_eq_none] at h
    cases s
    simp_all

theorem stopBgMusic_eq (s : EngineState) :
    stopBgMusic s =
      { s with
        bgInterval := none,
        allVoices := stopVoices s.bgOscillators s.now s.allVoices,
        bgOscillators := [],
        bgPlaying := false,
        currentMusicType := none } := by
  unfold stopBgMusic
  by_cases h : s.bgInterval.isSome
  · simp [h]
  · rw [Option.not_isSome_iff_eq_none] at h
    cases s
    simp_all

theorem stopAll_eq (s : EngineState) :
    stopAll s =
      { s with
        heartbeatInterval := none,
        bgInterval := none,
        allVoices := stopVoices s.activeOscillators s.now
          (stopVoices s.bgOscillators s.now s.allVoices),
        activeOscillators := [],
        bgOscillators := [],
        bgPlaying := false,
        currentMusicType := none } := by
  simp only [stopAll, stopHeartbeatLoop_eq, stopBgMusic_eq]

theorem markStopped_length (vid now : Nat) (vs : List Voice) :
    (markStopped vid now vs).length = vs.length := by
  simp [markStopped]

theorem stopVoices_length (l : List Nat) (now : Nat) (vs : List Voice) :
    (stopVoices l now vs).length = vs.length := by
  induction l generalizing vs with
  | nil => rfl
  | cons w l ih =>
      have h := ih (markStopped w now vs)
      rw [markStopped_length] at h
      simpa [stopVoices, List.foldl_cons] using h

/-- Forced stops change only the `forcedStopAt` field: ids, origins and natural
end times survive. -/
theorem markOne_core (vid now : Nat) (v : Voice) :
    (markOne vid now v).id = v.id ∧ (markOne vid now v).origin = v.origin ∧
    (markOne vid now v).schedStop = v.schedStop := by
  unfold markOne
  by_cases h : v.id = vid ∧ v.forcedStopAt = none ∧ now < v.schedStop <;> simp [h]

theorem markStopped_map_core (vid now : Nat) (vs : List Voice) :
    (markStopped vid now vs).map (fun v => (v.id, v.origin, v.schedStop)) =
      vs.map (fun v => (v.id, v.origin, v.schedStop)) := by
  unfold markStopped
  rw [List.map_map]
  apply List.map_congr_left
  intro v _
  have h := markOne_core vid now v
  simp [Function.comp, h.1, h.2.1, h.2.2]

theorem stopVoices_map_core (l : List Nat) (now : Nat) (vs : List Voice) :
    (stopVoices l now vs).map (fun v => (v.id, v.origin, v.schedStop)) =
      vs.map (fun v => (v.id, v.origin, v.schedStop)) := by
  induction l generalizing vs with
  | nil => rfl
  | cons w l ih =>
      simp only [stopVoices, List.foldl_cons] at ih ⊢
      rw [ih, markStopped_map_core]

/-- Boolean check: every journal entry carrying id `vid` has been force-stopped
or had already reached its natural end. -/
def stoppedInList (now : Nat) (vs : List Voice) (vid : Nat) : Bool :=
  vs.all fun v => v.id ≠ vid || v.forcedStopAt.isSome || decide (v.schedStop ≤ now)

theorem markOne_self_stopped (vid now : Nat) (v : Voice) :
    ((markOne vid now v).id ≠ vid || (markOne vid now v).forcedStopAt.isSome ||
      decide ((markOne vid now v).schedStop ≤ now)) = true := by
  unfold markOne
  by_cases h : v.id = vid ∧ v.forcedStopAt = none ∧ now < v.schedStop
  · simp [h]
  · rw [if_neg h]
    push_neg at h
    by_cases h1 : v.id = vid
    · by_cases h2 : v.forcedStopAt = none
      · have h3 := h h1 h2
        simp [h1, h2]
        omega
      · simp only [Option.ne_none_iff_isSome] at h2
        simp [h2]
    · simp [h1]

theorem markOne_stopped_mono (w vid now : Nat) (v : Voice)
    (h : (v.id ≠ vid || v.forcedStopAt.isSome || decide (v.schedStop ≤ now)) = true) :
    ((markOne w now v).id ≠ vid || (markOne w now v).forcedStopAt.isSome ||
      decide ((markOne w now v).schedStop ≤ now)) = true := by
  unfold markOne
  by_cases hc : v.id = w ∧ v.forcedStopAt = none ∧ now < v.schedStop
  · simp only [if_pos hc]
    simp_all
  · simp only [if_neg hc]
    exact h

theorem stoppedInList_markStopped_self (vid now : Nat) (vs : List Voice) :
    stoppedInList now (markStopped vid now vs) vid = true := by
  simp only [stoppedInList, markStopped, List.all_map, List.all_eq_true]
  intro v _
  exact markOne_self_stopped vid now v

theorem stoppedInList_markStopped_mono (w vid now : Nat) (vs : List Voice)
    (h : stoppedInList now vs vid = true) :
    stoppedInList now (markStopped w now vs) vid = true := by
  simp only [stoppedInList, markStopped, List.all_map, List.all_eq_true] at h ⊢
  intro v hv
  exact markOne_stopped_mono w vid now v (h v hv)

theorem stoppedInList_stopVoices_mono (l : List Nat) (vid now : Nat) (vs : List Voice)
    (h : stoppedInList now vs vid = true) :
    stoppedInList now (stopVoices l now vs) vid = true := by
  induction l generalizing vs with
  | nil => exact h
  | cons w l ih =>
      have h1 := stoppedInList_markStopped_mono w vid now vs h
      simpa [stopVoices, List.foldl_cons] using ih (markStopped w now vs) h1

/-- After `forEach(o => try o.stop() catch)` over a registry, every voice whose
id is in the registry has been force-stopped unless it had already ended. -/
theorem stoppedInList_stopVoices (l : List Nat) (vid now : Nat) :
    ∀ vs : List Voice, vid ∈ l → stoppedInList now (stopVoices l now vs) vid = true := by
  induction l with
  | nil =>
      intro vs hmem
      cases hmem
  | cons w l ih =>
      intro vs hmem
      rcases List.mem_cons.mp hmem with h | h
      · subst h
        have h1 := stoppedInList_markStopped_self vid now vs
        have h2 := stoppedInList_stopVoices_mono l vid now (markStopped vid now vs) h1
        simpa [stopVoices, List.foldl_cons] using h2
      · have h2 := ih (markStopped w now vs) h
        simpa [stopVoices, List.foldl_cons] using h2

/- ===================== Claim theorems ===================== -/

/-- C1. After `stopAll()` both voice registries are empty and both the
heartbeat session and the background-music session are inactive — for every
engine state, hence after every sequence of public engine calls. -/
theorem c1_stopAll_total_teardown (s : EngineState) :
    (stopAll s).activeOscillators = [] ∧ (stopAll s).bgOscillators = [] ∧
    (stopAll s).heartbeatInterval = none ∧ (stopAll s).bgInterval = none ∧
    (stopAll s).bgPlaying = false ∧ (stopAll s).currentMusicType = none := by
  rw [stopAll_eq]
  exact ⟨rfl, rfl, rfl, rfl, rfl, rfl⟩

/-- C2 counterexample. The claim says `stopBgMusic` force-stops every voice the
sequencer created, including the suspense shimmer and the lobby pluck-noise
burst. It does not: the source never pushes those two onto `bgOscillators`
(lines 273-282 start `highO` without tracking it; line 260 pushes only `o, oh`),
so after `stop()` at time 0 the single shimmer voice is unstopped with its
natural end still 4000 ms away, and the lobby noise burst is unstopped too,
while the tracked drone was force-stopped at 0. -/
theorem c2_counterexample :
    ((stopBgMusic (startBgMusic MusicType.suspense (initState true))).allVoices.filter
        (fun v => decide (v.origin = Origin.suspenseShimmer))).map
        (fun v => (v.forcedStopAt, v.schedStop)) = [(none, 4000)] ∧
    (stopBgMusic (startBgMusic MusicType.suspense (initState true))).now = 0 ∧
    ((stopBgMusic (startBgMusic MusicType.suspense (initState true))).allVoices.filter
        (fun v => decide (v.origin = Origin.suspenseDrone))).map
        (fun v => v.forcedStopAt) = [some 0] ∧
    ((stopBgMusic (startBgMusic MusicType.lobby (initState true))).allVoices.filter
        (fun v => decide (v.origin = Origin.lobbyNoise))).map
        (fun v => v.forcedStopAt) = [none] := by
  decide

/-- C2 (amended). `stopBgMusic()` cancels the recurring schedule, force-stops
every voice in its tracked registry `bgOscillators` (voices already past their
natural end are skipped without error), resets the mode to idle, and is
idempotent; the lobby pluck-noise burst and the suspense shimmer voice are not
in that registry and are not stopped. -/
theorem c2_stopBgMusic_amended :
    (∀ s : EngineState,
       (stopBgMusic s).bgInterval = none ∧ (stopBgMusic s).bgOscillators = [] ∧
       (stopBgMusic s).bgPlaying = false ∧ (stopBgMusic s).currentMusicType = none ∧
       stopBgMusic (stopBgMusic s) = stopBgMusic s) ∧
    (∀ (s : EngineState) (vid : Nat), vid ∈ s.bgOscillators →
       stoppedInList (stopBgMusic s).now (stopBgMusic s).allVoices vid = true) := by
  constructor
  · intro s
    refine ⟨?_, ?_, ?_, ?_, ?_⟩ <;>
      simp [stopBgMusic_eq, stopVoices]
  · intro s vid hmem
    rw [stopBgMusic_eq]
    exact stoppedInList_stopVoices s.bgOscillators vid s.now s.allVoices hmem

/-- C2 witness: in the concrete suspense session, the tracked drone (voice id 1)
is indeed force-stopped by `stopBgMusic()`. -/
theorem c2_witness :
    stoppedInList (stopBgMusic (startBgMusic MusicType.suspense (initState true))).now
      (stopBgMusic (startBgMusic MusicType.suspense (initState true))).allVoices 1 = true :=
  c2_stopBgMusic_amended.2 (startBgMusic MusicType.suspense (initState true)) 1 (by decide)

/-- C4. Requesting the mode that is already playing leaves the whole engine
state unchanged (so still exactly one session, one recurring trigger, and an
unchanged step cursor). -/
theorem c4_same_mode_noop (ty : MusicType) (s : EngineState)
    (h1 : s.bgPlaying = true) (h2 : s.currentMusicType = some ty) :
    startBgMusic ty s = s := by
  unfold startBgMusic
  by_cases hm : s.muted
  · simp [hm]
  · simp [hm, h1, h2]

/-- C4 witness: a second `startBgMusic('lobby')` right after the first changes
nothing. -/
theorem c4_witness :
    startBgMusic MusicType.lobby (startBgMusic MusicType.lobby (initState true)) =
      startBgMusic MusicType.lobby (initState true) :=
  c4_same_mode_noop MusicType.lobby (startBgMusic MusicType.lobby (initState true))
    (by decide) (by decide)

/-- C6. `toggleMute()` flips the flag and returns the new value; when the flip
mutes the engine it immediately runs `stopAll()`, so from an unmuted state both
registries end empty and both sessions end inactive. -/
theorem c6_toggleMute_mutes_and_stops (s : EngineState) :
    (toggleMute s).2 = !s.muted ∧ (toggleMute s).1.muted = !s.muted ∧
    (s.muted = false →
      (toggleMute s).1.activeOscillators = [] ∧
      (toggleMute s).1.bgOscillators = [] ∧
      (toggleMute s).1.heartbeatInterval = none ∧
      (toggleMute s).1.bgInterval = none ∧
      (toggleMute s).1.bgPlaying = false) := by
  unfold toggleMute
  by_cases hm : s.muted
  · simp [hm]
  · simp [hm, stopAll_eq]

/-- C6 witness: toggling from the fresh (unmuted) state returns true and tears
everything down. -/
theorem c6_witness :
    (toggleMute (initState true)).2 = true ∧
    (toggleMute (initState true)).1.activeOscillators = [] ∧
    (toggleMute (initState true)).1.heartbeatInterval = none := by
  have h := c6_toggleMute_mutes_and_stops (initState true)
  have h2 := h.2.2 (by decide)
  exact ⟨by simpa using h.1, h2.1, h2.2.2.1⟩

theorem osc_ok (w : Waveform) (freq dur vol : Nat) (rampTo : Option Nat) (og : Origin)
    (s : EngineState) (hm : s.muted = false) (ha : s.audioOk = true) :
    osc w freq dur vol rampTo og s =
      addVoice { s with ctxCreated := true } w freq rampTo vol s.now (s.now + dur) og Reg.effects := by
  simp [osc, caught, rawOsc, getCtx, hm, ha]

theorem osc_err (w : Waveform) (freq dur vol : Nat) (rampTo : Option Nat) (og : Origin)
    (s : EngineState) (hm : s.muted = false) (ha : s.audioOk = false) :
    osc w freq dur vol rampTo og s = s := by
  simp [osc, caught, rawOsc, getCtx, hm, ha]

/-- C9 counterexample. The claim gives the voice-factory `play` operation a
`startOffset` parameter (default 0) and has it schedule the tone at
`now + startOffset`. The source's factory `osc(type, freq, duration, volume,
rampFreq)` has no such parameter: no invocation of it, whatever the arguments
and state, can produce a voice whose scheduled start differs from the time of
the call. (The delayed voices of `correct`/`heartbeat`/`fanfare` are built
inline by those effects, not through `osc`.) -/
theorem c9_counterexample :
    ¬ ∃ (w : Waveform) (freq dur vol : Nat) (rampTo : Option Nat) (og : Origin)
        (s : EngineState) (v : Voice),
        v ∈ (osc w freq dur vol rampTo og s).allVoices ∧ v ∉ s.allVoices ∧
        v.schedStart ≠ s.now := by
  rintro ⟨w, freq, dur, vol, rampTo, og, s, v, hmem, hnot, hne⟩
  by_cases hm : s.muted = true
  · rw [show osc w freq dur vol rampTo og s = s by simp [osc, hm]] at hmem
    exact hnot hmem
  · rw [Bool.not_eq_true] at hm
    by_cases ha : s.audioOk = true
    · rw [osc_ok w freq dur vol rampTo og s hm ha] at hmem
      simp only [addVoice, List.mem_append, List.mem_singleton] at hmem
      rcases hmem with h | h
      · exact hnot h
      · subst h
        exact hne rfl
    · rw [Bool.not_eq_true] at ha
      rw [osc_err w freq dur vol rampTo og s hm ha] at hmem
      exact hnot hmem

/-- C9 (amended). The factory `osc(waveform, startFrequency, duration, volume,
targetFrequency?)` — it has no start-offset parameter — schedules the tone to
begin at `now` and stop at `now + duration`, registers the voice in the active
registry at creation, and the voice removes itself on its natural end (shown
concretely: the 50 ms click voice is registered on creation and has left
`activeOscillators` 50 ms later without having been force-stopped). -/
theorem c9_osc_amended :
    (∀ (w : Waveform) (freq dur vol : Nat) (rampTo : Option Nat) (og : Origin)
        (s : EngineState), s.muted = false → s.audioOk = true →
        (osc w freq dur vol rampTo og s).allVoices =
          s.allVoices ++ [Voice.mk s.nextId w freq rampTo vol s.now (s.now + dur) og none] ∧
        (osc w freq dur vol rampTo og s).activeOscillators =
          s.activeOscillators ++ [s.nextId]) ∧
    ((click (initState true)).activeOscillators = [0] ∧
     (elapse 50 (click (initState true))).activeOscillators = [] ∧
     (elapse 50 (click (initState true))).allVoices.map (fun v => v.forcedStopAt) = [none]) := by
  constructor
  · intro w freq dur vol rampTo og s hm ha
    rw [osc_ok w freq dur vol rampTo og s hm ha]
    simp [addVoice]
  · exact ⟨by decide, by decide, by decide⟩

/-- C9 witness: the concrete click invocation from the fresh state. -/
theorem c9_witness :
    (osc Waveform.sine 100000 50 80 none Origin.clickFx (initState true)).allVoices =
      [Voice.mk 0 Waveform.sine 100000 none 80 0 50 Origin.clickFx none] ∧
    (osc Waveform.sine 100000 50 80 none Origin.clickFx (initState true)).activeOscillators = [0] :=
  c9_osc_amended.1 Waveform.sine 100000 50 80 none Origin.clickFx (initState true)
    (by decide) (by decide)

theorem correct_err (s : EngineState) (ha : s.audioOk = false) : correct s = s := by
  by_cases hm : s.muted = true
  · simp [correct, hm]
  · simp [correct, caught, rawCorrect, getCtx, hm, ha]

theorem heartbeat_err (s : EngineState) (ha : s.audioOk = false) : heartbeat s = s := by
  by_cases hm : s.muted = true
  · simp [heartbeat, hm]
  · simp [heartbeat, caught, rawHeartbeat, getCtx, hm, ha]

theorem fanfare_err (s : EngineState) (ha : s.audioOk = false) : fanfare s = s := by
  by_cases hm : s.muted = true
  · simp [fanfare, hm]
  · simp [fanfare, caught, rawFanfare, getCtx, hm, ha]

theorem osc_err_any (w : Waveform) (freq dur vol : Nat) (rampTo : Option Nat) (og : Origin)
    (s : EngineState) (ha : s.audioOk = false) : osc w freq dur vol rampTo og s = s := by
  by_cases hm : s.muted = true
  · simp [osc, hm]
  · rw [Bool.not_eq_true] at hm
    exact osc_err w freq dur vol rampTo og s hm ha

/-- C8. Every raw body that touches the Output Context fails exactly at the
point of origin — `getCtx` throws before any state was mutated, so the carried
error state is the entry state — and the public operations (every `step` other
than the passage of time) discard the failure: they return normally (they are
total functions into `EngineState`), create no voice (the append-only journal
keeps its length) and fire no heartbeat unit. -/
theorem c8_audio_failures_swallowed :
    (∀ (w : Waveform) (freq dur vol : Nat) (rampTo : Option Nat) (og : Origin)
        (ty : MusicType) (s : EngineState), s.audioOk = false →
        rawOsc w freq dur vol rampTo og s = Except.error s ∧
        rawCorrect s = Except.error s ∧
        rawHeartbeat s = Except.error s ∧
        rawFanfare s = Except.error s ∧
        rawStartBg ty s = Except.error s) ∧
    (∀ (e : Ev) (s : EngineState), e ≠ Ev.evElapse → s.audioOk = false →
        (step e s).allVoices.length = s.allVoices.length ∧
        (step e s).hbUnits = s.hbUnits) := by
  constructor
  · intro w freq dur vol rampTo og ty s ha
    refine ⟨?_, ?_, ?_, ?_, ?_⟩ <;> simp [rawOsc, rawCorrect, rawHeartbeat, rawFanfare, rawStartBg, getCtx, ha]
  · intro e s hne ha
    cases e with
    | evClick => rw [show step Ev.evClick s = s from osc_err_any _ _ _ _ _ _ s ha]; exact ⟨rfl, rfl⟩
    | evWrong => rw [show step Ev.evWrong s = s from osc_err_any _ _ _ _ _ _ s ha]; exact ⟨rfl, rfl⟩
    | evTick => rw [show step Ev.evTick s = s from osc_err_any _ _ _ _ _ _ s ha]; exact ⟨rfl, rfl⟩
    | evLightBeep => rw [show step Ev.evLightBeep s = s from osc_err_any _ _ _ _ _ _ s ha]; exact ⟨rfl, rfl⟩
    | evGoBurst => rw [show step Ev.evGoBurst s = s from osc_err_any _ _ _ _ _ _ s ha]; exact ⟨rfl, rfl⟩
    | evFalseStart => rw [show step Ev.evFalseStart s = s from osc_err_any _ _ _ _ _ _ s ha]; exact ⟨rfl, rfl⟩
    | evCorrect => rw [show step Ev.evCorrect s = s from correct_err s ha]; exact ⟨rfl, rfl⟩
    | evHeartbeat => rw [show step Ev.evHeartbeat s = s from heartbeat_err s ha]; exact ⟨rfl, rfl⟩
    | evFanfare => rw [show step Ev.evFanfare s = s from fanfare_err s ha]; exact ⟨rfl, rfl⟩
    | evStartHB =>
        simp only [step, startHeartbeatLoop]
        by_cases h : s.heartbeatInterval.isSome
        · simp [h]
        · simp [h, heartbeat_err s ha]
    | evStopHB => simp [step, stopHeartbeatLoop_eq]
    | evStopBg => simp [step, stopBgMusic_eq, stopVoices_length]
    | evStopAll => simp [step, stopAll_eq, stopVoices_length]
    | evToggleMute =>
        simp only [step, toggleMute]
        by_cases hm : s.muted = true
        · simp [hm]
        · simp [hm, stopAll_eq, stopVoices_length]
    | evStartBg ty =>
        simp only [step, startBgMusic]
        by_cases hm : s.muted = true
        · simp [hm]
        · by_cases hsame : s.bgPlaying ∧ s.currentMusicType = some ty
          · simp [hm, hsame]
          · by_cases hp : s.bgPlaying = true
            · have hst : ¬(s.currentMusicType = some ty) := fun h => hsame ⟨hp, h⟩
              simp [hm, hsame, hp, hst, caught, rawStartBg, getCtx, ha, stopBgMusic_eq,
                stopVoices_length, Except.map]
            · simp [hm, hsame, hp, caught, rawStartBg, getCtx, ha, Except.map]
    | evElapse => exact absurd rfl hne

/-- C8 witness: concrete failing backend, concrete operation. -/
theorem c8_witness :
    rawOsc Waveform.sine 100000 50 80 none Origin.clickFx (initState false) =
      Except.error (initState false) ∧
    (step Ev.evClick (initState false)).allVoices.length =
      (initState false).allVoices.length := by
  have h1 := c8_audio_failures_swallowed.1 Waveform.sine 100000 50 80 none Origin.clickFx
    MusicType.lobby (initState false) (by decide)
  have h2 := c8_audio_failures_swallowed.2 Ev.evClick (initState false) (by decide) (by decide)
  exact ⟨h1.1, h2.1⟩

/-- A state in which only the heartbeat loop is scheduled: unmuted, working
backend, the heartbeat interval as installed at time 0 with its 800 ms period,
no background interval. -/
def HbOnly (s : EngineState) : Prop :=
  s.muted = false ∧ s.audioOk = true ∧
  s.heartbeatInterval = some { installedAt := 0, period := 800 } ∧ s.bgInterval = none

theorem heartbeat_fields (s : EngineState) :
    (heartbeat s).muted = s.muted ∧ (heartbeat s).audioOk = s.audioOk ∧
    (heartbeat s).heartbeatInterval = s.heartbeatInterval ∧
    (heartbeat s).bgInterval = s.bgInterval ∧ (heartbeat s).now = s.now := by
  by_cases hm : s.muted = true
  · simp [heartbeat, hm]
  · by_cases ha : s.audioOk = true
    · simp [heartbeat, caught, rawHeartbeat, getCtx, hm, ha, addVoice]
    · simp [heartbeat, caught, rawHeartbeat, getCtx, hm, ha]

theorem heartbeat_hbUnits_ok (s : EngineState) (hm : s.muted = false) (ha : s.audioOk = true) :
    (heartbeat s).hbUnits = s.hbUnits + 1 := by
  simp [heartbeat, caught, rawHeartbeat, getCtx, hm, ha, addVoice]

theorem expireVoices_fields (s : EngineState) :
    (expireVoices s).muted = s.muted ∧ (expireVoices s).audioOk = s.audioOk ∧
    (expireVoices s).heartbeatInterval = s.heartbeatInterval ∧
    (expireVoices s).bgInterval = s.bgInterval ∧ (expireVoices s).now = s.now ∧
    (expireVoices s).hbUnits = s.hbUnits := by
  simp [expireVoices]

/-- One millisecond in a heartbeat-only state: the interval fires exactly at
the multiples of 800 ms, adding one audible unit. -/
theorem elapse1_hbOnly (s : EngineState) (h : HbOnly s) :
    HbOnly (elapse1 s) ∧ (elapse1 s).now = s.now + 1 ∧
    (elapse1 s).hbUnits = if (s.now + 1) % 800 = 0 then s.hbUnits + 1 else s.hbUnits := by
  obtain ⟨hm, ha, hhb, hbg⟩ := h
  have hfh : fireHeartbeat { s with now := s.now + 1 } =
      (if (s.now + 1) % 800 = 0 then heartbeat { s with now := s.now + 1 }
       else { s with now := s.now + 1 }) := by
    unfold fireHeartbeat
    rw [show ({ s with now := s.now + 1 } : EngineState).heartbeatInterval =
      some { installedAt := 0, period := 800 } from hhb]
    by_cases hfire : (s.now + 1) % 800 = 0 <;> simp [hfire]
  unfold elapse1
  rw [hfh]
  by_cases hfire : (s.now + 1) % 800 = 0
  · rw [if_pos hfire, if_pos hfire]
    have hf := heartbeat_fields { s with now := s.now + 1 }
    have hu := heartbeat_hbUnits_ok { s with now := s.now + 1 } hm ha
    have hfb : fireBg (heartbeat { s with now := s.now + 1 }) =
        heartbeat { s with now := s.now + 1 } := by
      unfold fireBg
      rw [show (heartbeat { s with now := s.now + 1 }).bgInterval = none from by
        rw [hf.2.2.2.1]; exact hbg]
    rw [hfb]
    have he := expireVoices_fields (heartbeat { s with now := s.now + 1 })
    refine ⟨⟨?_, ?_, ?_, ?_⟩, ?_, ?_⟩
    · rw [he.1, hf.1]; exact hm
    · rw [he.2.1, hf.2.1]; exact ha
    · rw [he.2.2.1, hf.2.2.1]; exact hhb
    · rw [he.2.2.2.1, hf.2.2.2.1]; exact hbg
    · rw [he.2.2.2.2.1, hf.2.2.2.2]
    · rw [he.2.2.2.2.2, hu]
  · rw [if_neg hfire, if_neg hfire]
    have hfb : fireBg { s with now := s.now + 1 } = { s with now := s.now + 1 } := by
      unfold fireBg
      rw [show ({ s with now := s.now + 1 } : EngineState).bgInterval = none from hbg]
    rw [hfb]
    have he := expireVoices_fields { s with now := s.now + 1 }
    refine ⟨⟨?_, ?_, ?_, ?_⟩, ?_, ?_⟩
    · rw [he.1]; exact hm
    · rw [he.2.1]; exact ha
    · rw [he.2.2.1]; exact hhb
    · rw [he.2.2.2.1]; exact hbg
    · rw [he.2.2.2.2.1]
    · rw [he.2.2.2.2.2]

/-- Closed form: over `n` further milliseconds, a heartbeat-only session fires
one audible unit per elapsed multiple of 800 ms. -/
theorem elapse_hb_count : ∀ (n : Nat) (s : EngineState), HbOnly s →
    (elapse n s).hbUnits = s.hbUnits + ((s.now + n) / 800 - s.now / 800) := by
  intro n
  induction n with
  | zero => intro s _; simp [elapse]
  | succ n ih =>
      intro s hs
      obtain ⟨h1, h2, h3⟩ := elapse1_hbOnly s hs
      show (elapse n (elapse1 s)).hbUnits = _
      rw [ih (elapse1 s) h1, h2, h3]
      by_cases hfire : (s.now + 1) % 800 = 0
      · rw [if_pos hfire]
        omega
      · rw [if_neg hfire]
        omega

/-- C5. `startHeartbeatLoop()` is a no-op while the interval handle is set;
from the fresh unmuted state, even when called twice in a row it fires one
immediate unit, installs the single 800 ms trigger, and over the 4000 ms
window `[0, 4000)` exactly 5 heartbeat units fire (the immediate one plus the
ones at 800, 1600, 2400 and 3200 ms). -/
theorem c5_heartbeat_loop :
    (∀ s : EngineState, s.heartbeatInterval.isSome = true → startHeartbeatLoop s = s) ∧
    ((startHeartbeatLoop (startHeartbeatLoop (initState true))).hbUnits = 1 ∧
     (startHeartbeatLoop (startHeartbeatLoop (initState true))).heartbeatInterval =
       some { installedAt := 0, period := 800 } ∧
     (elapse 3999 (startHeartbeatLoop (startHeartbeatLoop (initState true)))).hbUnits = 5) := by
  constructor
  · intro s h
    unfold startHeartbeatLoop
    simp [h]
  · refine ⟨by decide, by decide, ?_⟩
    have hh : HbOnly (startHeartbeatLoop (startHeartbeatLoop (initState true))) :=
      ⟨by decide, by decide, by decide, by decide⟩
    rw [elapse_hb_count 3999 _ hh]
    decide

/-- C5 witness: the second call in a row really is a no-op. -/
theorem c5_witness :
    startHeartbeatLoop (startHeartbeatLoop (initState true)) =
      startHeartbeatLoop (initState true) :=
  c5_heartbeat_loop.1 (startHeartbeatLoop (initState true)) (by decide)

/-- C10. While muted, `startHeartbeatLoop()` still installs the 800 ms trigger
(the immediate heartbeat is silenced, so no unit is counted and the state
changes only by the new interval handle), whereas `startBgMusic` returns at its
mute guard and changes nothing. Consequently mute, start loop, unmute, wait
800 ms yields a first audible heartbeat unit without any further start call. -/
theorem c10_muted_asymmetry :
    (∀ s : EngineState, s.muted = true → s.heartbeatInterval = none →
       startHeartbeatLoop s =
         { s with heartbeatInterval := some { installedAt := s.now, period := 800 } }) ∧
    (∀ (ty : MusicType) (s : EngineState), s.muted = true → startBgMusic ty s = s) ∧
    ((toggleMute (startHeartbeatLoop ((toggleMute (initState true)).1))).1.hbUnits = 0 ∧
     (toggleMute (startHeartbeatLoop ((toggleMute (initState true)).1))).1.muted = false ∧
     (toggleMute (startHeartbeatLoop ((toggleMute (initState true)).1))).1.heartbeatInterval =
       some { installedAt := 0, period := 800 } ∧
     (elapse 800 (toggleMute (startHeartbeatLoop ((toggleMute (initState true)).1))).1).hbUnits = 1) := by
  refine ⟨?_, ?_, ?_⟩
  · intro s hm hnone
    unfold startHeartbeatLoop
    have hhb : heartbeat s = s := by simp [heartbeat, hm]
    simp only [hnone, Option.isSome_none, Bool.false_eq_true, if_false, hhb]
  · intro ty s hm
    simp [startBgMusic, hm]
  · refine ⟨by decide, by decide, by decide, ?_⟩
    have hh : HbOnly (toggleMute (startHeartbeatLoop ((toggleMute (initState true)).1))).1 :=
      ⟨by decide, by decide, by decide, by decide⟩
    rw [elapse_hb_count 800 _ hh]
    decide

/-- C10 witness: the concrete muted start installs the trigger, and a muted
`startBgMusic('lobby')` is a no-op. -/
theorem c10_witness :
    startHeartbeatLoop ((toggleMute (initState true)).1) =
      { (toggleMute (initState true)).1 with
        heartbeatInterval := some { installedAt := (toggleMute (initState true)).1.now, period := 800 } } ∧
    startBgMusic MusicType.lobby ((toggleMute (initState true)).1) =
      (toggleMute (initState true)).1 :=
  ⟨c10_muted_asymmetry.1 ((toggleMute (initState true)).1) (by decide) (by decide),
   c10_muted_asymmetry.2.1 MusicType.lobby ((toggleMute (initState true)).1) (by decide)⟩

/-- Invariant of every state reachable through the public interface plus the
passage of time: while muted the effect registry is empty; the effect registry
never holds a lobby-sequencer voice; journal ids and registry ids stay below
the id counter; a live background session implies a working backend. -/
def EngineInv (s : EngineState) : Prop :=
  (s.muted = true → s.activeOscillators = []) ∧
  (∀ v ∈ s.allVoices, v.id ∈ s.activeOscillators → v.origin.isLobby = false) ∧
  (∀ v ∈ s.allVoices, v.id < s.nextId) ∧
  (∀ vid ∈ s.activeOscillators, vid < s.nextId) ∧
  (∀ vid ∈ s.bgOscillators, vid < s.nextId) ∧
  (s.bgPlaying = true → s.audioOk = true)

theorem inv_addVoice (s : EngineState) (w : Waveform) (freq : Nat) (rampTo : Option Nat)
    (vol : Nat) (start stop : Nat) (og : Origin) (reg : Reg)
    (h : EngineInv s) (hm : s.muted = false) (hog : reg = Reg.effects → og.isLobby = false) :
    EngineInv (addVoice s w freq rampTo vol start stop og reg) := by
  obtain ⟨h1, h2, h3, h4, h5, h6⟩ := h
  simp only [addVoice]
  unfold EngineInv
  dsimp only
  refine ⟨?_, ?_, ?_, ?_, ?_, ?_⟩
  · intro hmm
    rw [hm] at hmm
    cases hmm
  · intro v hv hvid
    rcases List.mem_append.mp hv with hold | hnew
    · by_cases hreg : reg = Reg.effects
      · rw [if_pos hreg] at hvid
        rcases List.mem_append.mp hvid with hva | hvn
        · exact h2 v hold hva
        · have := h3 v hold
          rw [List.mem_singleton.mp hvn] at this
          omega
      · rw [if_neg hreg] at hvid
        exact h2 v hold hvid
    · rw [List.mem_singleton.mp hnew]
      by_cases hreg : reg = Reg.effects
      · exact hog hreg
      · rw [if_neg hreg] at hvid
        rw [List.mem_singleton.mp hnew] at hvid
        dsimp only at hvid
        exact absurd (h4 _ hvid) (lt_irrefl _)
  · intro v hv
    rcases List.mem_append.mp hv with hold | hnew
    · have := h3 v hold
      omega
    · rw [List.mem_singleton.mp hnew]
      dsimp only
      omega
  · intro vid hvid
    by_cases hreg : reg = Reg.effects
    · rw [if_pos hreg] at hvid
      rcases List.mem_append.mp hvid with hva | hvn
      · have := h4 vid hva
        omega
      · rw [List.mem_singleton.mp hvn]
        omega
    · rw [if_neg hreg] at hvid
      have := h4 vid hvid
      omega
  · intro vid hvid
    by_cases hreg : reg = Reg.bg
    · rw [if_pos hreg] at hvid
      rcases List.mem_append.mp hvid with hvb | hvn
      · have := h5 vid hvb
        omega
      · rw [List.mem_singleton.mp hvn]
        omega
    · rw [if_neg hreg] at hvid
      have := h5 vid hvid
      omega
  · exact h6

theorem inv_ctxCreated (s : EngineState) (h : EngineInv s) :
    EngineInv { s with ctxCreated := true } := h

theorem inv_osc (w : Waveform) (freq dur vol : Nat) (rampTo : Option Nat) (og : Origin)
    (s : EngineState) (h : EngineInv s) (hog : og.isLobby = false) :
    EngineInv (osc w freq dur vol rampTo og s) := by
  by_cases hm : s.muted = true
  · rw [show osc w freq dur vol rampTo og s = s by simp [osc, hm]]
    exact h
  · rw [Bool.not_eq_true] at hm
    by_cases ha : s.audioOk = true
    · rw [osc_ok w freq dur vol rampTo og s hm ha]
      exact inv_addVoice _ _ _ _ _ _ _ _ _ (inv_ctxCreated s h) hm (fun _ => hog)
    · rw [Bool.not_eq_true] at ha
      rw [osc_err w freq dur vol rampTo og s hm ha]
      exact h

theorem stopVoices_forall {P : Nat → Origin → Prop} (l : List Nat) (now : Nat)
    (vs : List Voice) (h : ∀ v ∈ vs, P v.id v.origin) :
    ∀ v ∈ stopVoices l now vs, P v.id v.origin := by
  intro v hv
  have hmm : (v.id, v.origin, v.schedStop) ∈
      (stopVoices l now vs).map (fun u => (u.id, u.origin, u.schedStop)) :=
    List.mem_map_of_mem _ hv
  rw [stopVoices_map_core] at hmm
  obtain ⟨u, hu, hequ⟩ := List.mem_map.mp hmm
  simp only [Prod.mk.injEq] at hequ
  rw [← hequ.1, ← hequ.2.1]
  exact h u hu

theorem correct_ok_eq (s : EngineState) (hm : s.muted = false) (ha : s.audioOk = true) :
    correct s =
      addVoice
        (addVoice { s with ctxCreated := true } Waveform.sine 52300 none 120 s.now
          (s.now + 120) Origin.correctFx Reg.effects)
        Waveform.sine 78400 none 120 (s.now + 80) (s.now + 80 + 120) Origin.correctFx
        Reg.effects := by
  simp [correct, caught, rawCorrect, getCtx, hm, ha]

theorem fanfare_ok_eq (s : EngineState) (hm : s.muted = false) (ha : s.audioOk = true) :
    fanfare s =
      addVoice
        (addVoice
          (addVoice
            (addVoice { s with ctxCreated := true } Waveform.sine 52300 none 120 s.now
              (s.now + 200) Origin.fanfareFx Reg.effects)
            Waveform.sine 65900 none 120 (s.now + 120) (s.now + 120 + 200) Origin.fanfareFx
            Reg.effects)
          Waveform.sine 78400 none 120 (s.now + 240) (s.now + 240 + 200) Origin.fanfareFx
          Reg.effects)
        Waveform.sine 104700 none 120 (s.now + 360) (s.now + 360 + 200) Origin.fanfareFx
        Reg.effects := by
  simp [fanfare, caught, rawFanfare, getCtx, hm, ha]

theorem heartbeat_ok_eq (s : EngineState) (hm : s.muted = false) (ha : s.audioOk = true) :
    heartbeat s =
      { addVoice
          (addVoice { s with ctxCreated := true } Waveform.sine 6000 none 200 s.now
            (s.now + 150) Origin.heartbeatFx Reg.effects)
          Waveform.sine 6000 none 200 (s.now + 150) (s.now + 150 + 150) Origin.heartbeatFx
          Reg.effects with
        hbUnits :=
          (addVoice
            (addVoice { s with ctxCreated := true } Waveform.sine 6000 none 200 s.now
              (s.now + 150) Origin.heartbeatFx Reg.effects)
            Waveform.sine 6000 none 200 (s.now + 150) (s.now + 150 + 150) Origin.heartbeatFx
            Reg.effects).hbUnits + 1 } := by
  simp [heartbeat, caught, rawHeartbeat, getCtx, hm, ha]

theorem inv_correct (s : EngineState) (h : EngineInv s) : EngineInv (correct s) := by
  by_cases hm : s.muted = true
  · rw [show correct s = s from by simp [correct, hm]]
    exact h
  · rw [Bool.not_eq_true] at hm
    by_cases ha : s.audioOk = true
    · rw [correct_ok_eq s hm ha]
      apply inv_addVoice
      · apply inv_addVoice
        · exact inv_ctxCreated s h
        · exact hm
        · exact fun _ => by rfl
      · exact hm
      · exact fun _ => by rfl
    · rw [Bool.not_eq_true] at ha
      rw [correct_err s ha]
      exact h

theorem inv_heartbeat (s : EngineState) (h : EngineInv s) : EngineInv (heartbeat s) := by
  by_cases hm : s.muted = true
  · rw [show heartbeat s = s from by simp [heartbeat, hm]]
    exact h
  · rw [Bool.not_eq_true] at hm
    by_cases ha : s.audioOk = true
    · rw [heartbeat_ok_eq s hm ha]
      show EngineInv (addVoice
        (addVoice { s with ctxCreated := true } Waveform.sine 6000 none 200 s.now
          (s.now + 150) Origin.heartbeatFx Reg.effects)
        Waveform.sine 6000 none 200 (s.now + 150) (s.now + 150 + 150) Origin.heartbeatFx
        Reg.effects)
      apply inv_addVoice
      · apply inv_addVoice
        · exact inv_ctxCreated s h
        · exact hm
        · exact fun _ => by rfl
      · exact hm
      · exact fun _ => by rfl
    · rw [Bool.not_eq_true] at ha
      rw [heartbeat_err s ha]
      exact h

theorem inv_fanfare (s : EngineState) (h : EngineInv s) : EngineInv (fanfare s) := by
  by_cases hm : s.muted = true
  · rw [show fanfare s = s from by simp [fanfare, hm]]
    exact h
  · rw [Bool.not_eq_true] at hm
    by_cases ha : s.audioOk = true
    · rw [fanfare_ok_eq s hm ha]
      apply inv_addVoice
      · apply inv_addVoice
        · apply inv_addVoice
          · apply inv_addVoice
            · exact inv_ctxCreated s h
            · exact hm
            · exact fun _ => by rfl
          · exact hm
          · exact fun _ => by rfl
        · exact hm
        · exact fun _ => by rfl
      · exact hm
      · exact fun _ => by rfl
    · rw [Bool.not_eq_true] at ha
      rw [fanfare_err s ha]
      exact h

theorem inv_stopBgMusic (s : EngineState) (h : EngineInv s) : EngineInv (stopBgMusic s) := by
  obtain ⟨h1, h2, h3, h4, h5, h6⟩ := h
  rw [stopBgMusic_eq]
  refine ⟨?_, ?_, ?_, ?_, ?_, ?_⟩
  · intro hmm
    exact h1 hmm
  · exact @stopVoices_forall (fun i og => i ∈ s.activeOscillators → og.isLobby = false)
      s.bgOscillators s.now s.allVoices h2
  · exact @stopVoices_forall (fun i _ => i < s.nextId) s.bgOscillators s.now s.allVoices h3
  · exact h4
  · intro vid hvid
    cases hvid
  · intro hb
    cases hb

theorem inv_stopAll_of_ids (s : EngineState) (hid : ∀ v ∈ s.allVoices, v.id < s.nextId) :
    EngineInv (stopAll s) := by
  rw [stopAll_eq]
  refine ⟨?_, ?_, ?_, ?_, ?_, ?_⟩
  · intro _
    rfl
  · intro v _ hvid
    cases hvid
  · exact @stopVoices_forall (fun i _ => i < s.nextId) s.activeOscillators s.now _
      (@stopVoices_forall (fun i _ => i < s.nextId) s.bgOscillators s.now s.allVoices hid)
  · intro vid hvid
    cases hvid
  · intro vid hvid
    cases hvid
  · intro hb
    cases hb

theorem inv_stopHeartbeatLoop (s : EngineState) (h : EngineInv s) :
    EngineInv (stopHeartbeatLoop s) := by
  rw [stopHeartbeatLoop_eq]
  exact h

theorem inv_toggleMute (s : EngineState) (h : EngineInv s) : EngineInv (toggleMute s).1 := by
  by_cases hm : s.muted = true
  · rw [show (toggleMute s).1 = { s with muted := false } from by simp [toggleMute, hm]]
    exact ⟨fun hmm => absurd hmm (by simp), h.2.1, h.2.2.1, h.2.2.2.1, h.2.2.2.2.1,
      h.2.2.2.2.2⟩
  · rw [show (toggleMute s).1 = stopAll { s with muted := true } from by simp [toggleMute, hm]]
    exact inv_stopAll_of_ids { s with muted := true } h.2.2.1

theorem inv_startHeartbeatLoop (s : EngineState) (h : EngineInv s) :
    EngineInv (startHeartbeatLoop s) := by
  unfold startHeartbeatLoop
  by_cases hs : s.heartbeatInterval.isSome
  · rw [if_pos hs]
    exact h
  · rw [if_neg hs]
    exact inv_heartbeat s h

theorem inv_playGuitarPluck (f vol dcy : Nat) (s : EngineState) (h : EngineInv s)
    (hm : s.muted = false) : EngineInv (playGuitarPluck f vol dcy s) := by
  unfold playGuitarPluck
  apply inv_addVoice
  · apply inv_addVoice
    · apply inv_addVoice
      · exact h
      · exact hm
      · exact fun heq => Reg.noConfusion heq
    · exact hm
    · exact fun heq => Reg.noConfusion heq
  · exact hm
  · exact fun heq => Reg.noConfusion heq

theorem inv_playNote (ty : MusicType) (s : EngineState) (h : EngineInv s) :
    EngineInv (playNote ty s) := by
  unfold playNote
  by_cases hg : (s.muted || !s.bgPlaying) = true
  · rw [if_pos hg]
    exact h
  · rw [if_neg hg]
    have hm : s.muted = false := by
      revert hg
      cases s.muted <;> simp
    cases ty with
    | lobby =>
        exact inv_playGuitarPluck _ 40 3000 s h hm
    | suspense =>
        dsimp only
        generalize (sequenceOf MusicType.suspense).getD
          (s.bgStep % (sequenceOf MusicType.suspense).length) 0 = f
        by_cases hstep : s.bgStep % 4 = 0
        · rw [if_pos hstep]
          have h2 := inv_addVoice s Waveform.sine (f * 4) none 15 s.now (s.now + 4000)
            Origin.suspenseShimmer Reg.untracked h hm (fun heq => Reg.noConfusion heq)
          exact inv_addVoice (addVoice s Waveform.sine (f * 4) none 15 s.now (s.now + 4000)
              Origin.suspenseShimmer Reg.untracked) Waveform.sine f none 50
            (addVoice s Waveform.sine (f * 4) none 15 s.now (s.now + 4000)
              Origin.suspenseShimmer Reg.untracked).now
            ((addVoice s Waveform.sine (f * 4) none 15 s.now (s.now + 4000)
              Origin.suspenseShimmer Reg.untracked).now + 4000)
            Origin.suspenseDrone Reg.bg h2 hm (fun heq => Reg.noConfusion heq)
        · rw [if_neg hstep]
          exact inv_addVoice s Waveform.sine f none 50 s.now (s.now + 4000)
            Origin.suspenseDrone Reg.bg h hm (fun heq => Reg.noConfusion heq)

/-- The state mutations done by `startBgMusic` before the first note plays:
context acquired, `bgPlaying` raised, type recorded, step cursor reset. -/
def bgSetup (ty : MusicType) (u : EngineState) : EngineState :=
  { u with ctxCreated := true, bgPlaying := true, currentMusicType := some ty, bgStep := 0 }

theorem rawStartBg_ok (ty : MusicType) (u : EngineState) (ha : u.audioOk = true) :
    rawStartBg ty u =
      Except.ok
        { playNote ty (bgSetup ty u) with
          bgInterval := some
            { installedAt := (playNote ty (bgSetup ty u)).now, period := intervalOf ty,
              mode := ty } } := by
  simp [rawStartBg, getCtx, ha, Except.map, bgSetup]

theorem inv_bgSetup (ty : MusicType) (u : EngineState) (h : EngineInv u)
    (ha : u.audioOk = true) : EngineInv (bgSetup ty u) := by
  obtain ⟨h1, h2, h3, h4, h5, _⟩ := h
  exact ⟨fun hmm => h1 hmm, h2, h3, h4, h5, fun _ => ha⟩

theorem inv_startBgMusic (ty : MusicType) (s : EngineState) (h : EngineInv s) :
    EngineInv (startBgMusic ty s) := by
  unfold startBgMusic
  by_cases hm : s.muted = true
  · rw [if_pos hm]
    exact h
  · rw [if_neg hm]
    by_cases hsame : s.bgPlaying ∧ s.currentMusicType = some ty
    · rw [if_pos hsame]
      exact h
    · rw [if_neg hsame]
      have hinvu : EngineInv (if s.bgPlaying = true then stopBgMusic s else s) := by
        by_cases hp : s.bgPlaying = true
        · rw [if_pos hp]
          exact inv_stopBgMusic s h
        · rw [if_neg hp]
          exact h
      set u := if s.bgPlaying = true then stopBgMusic s else s with hu
      by_cases ha : u.audioOk = true
      · rw [show caught (rawStartBg ty) u =
          { playNote ty (bgSetup ty u) with
            bgInterval := some
              { installedAt := (playNote ty (bgSetup ty u)).now, period := intervalOf ty,
                mode := ty } } from by
            simp only [caught, rawStartBg_ok ty u ha]]
        exact inv_playNote ty (bgSetup ty u) (inv_bgSetup ty u hinvu ha)
      · rw [Bool.not_eq_true] at ha
        rw [show caught (rawStartBg ty) u = u from by
          simp [caught, rawStartBg, getCtx, ha]]
        exact hinvu

theorem inv_fireHeartbeat (s : EngineState) (h : EngineInv s) :
    EngineInv (fireHeartbeat s) := by
  unfold fireHeartbeat
  cases hiv : s.heartbeatInterval with
  | none => exact h
  | some iv =>
      dsimp only
      split
      · exact inv_heartbeat s h
      · exact h

theorem inv_fireBg (s : EngineState) (h : EngineInv s) : EngineInv (fireBg s) := by
  unfold fireBg
  cases hiv : s.bgInterval with
  | none => exact h
  | some iv =>
      dsimp only
      split
      · exact inv_playNote iv.mode s h
      · exact h

theorem inv_expireVoices (s : EngineState) (h : EngineInv s) :
    EngineInv (expireVoices s) := by
  obtain ⟨h1, h2, h3, h4, h5, h6⟩ := h
  unfold expireVoices
  refine ⟨?_, ?_, h3, ?_, ?_, h6⟩
  · intro hmm
    dsimp only
    rw [h1 hmm]
    rfl
  · intro v hv hvid
    exact h2 v hv (List.mem_filter.mp hvid).1
  · intro vid hvid
    exact h4 vid (List.mem_filter.mp hvid).1
  · intro vid hvid
    exact h5 vid (List.mem_filter.mp hvid).1

theorem inv_elapse1 (s : EngineState) (h : EngineInv s) : EngineInv (elapse1 s) := by
  unfold elapse1
  exact inv_expireVoices _ (inv_fireBg _ (inv_fireHeartbeat { s with now := s.now + 1 } h))

theorem inv_step (e : Ev) (s : EngineState) (h : EngineInv s) : EngineInv (step e s) := by
  cases e with
  | evClick => exact inv_osc Waveform.sine 100000 50 80 none Origin.clickFx s h rfl
  | evCorrect => exact inv_correct s h
  | evWrong => exact inv_osc Waveform.sawtooth 20000 250 100 none Origin.wrongFx s h rfl
  | evTick => exact inv_osc Waveform.sine 80000 30 60 none Origin.tickFx s h rfl
  | evHeartbeat => exact inv_heartbeat s h
  | evStartHB => exact inv_startHeartbeatLoop s h
  | evStopHB => exact inv_stopHeartbeatLoop s h
  | evLightBeep => exact inv_osc Waveform.sine 44000 100 100 none Origin.lightBeepFx s h rfl
  | evGoBurst => exact inv_osc Waveform.sine 120000 300 150 (some 60000) Origin.goBurstFx s h rfl
  | evFalseStart => exact inv_osc Waveform.square 15000 500 120 none Origin.falseStartFx s h rfl
  | evFanfare => exact inv_fanfare s h
  | evStartBg ty => exact inv_startBgMusic ty s h
  | evStopBg => exact inv_stopBgMusic s h
  | evToggleMute => exact inv_toggleMute s h
  | evStopAll => exact inv_stopAll_of_ids s h.2.2.1
  | evElapse => exact inv_elapse1 s h

theorem inv_run_aux : ∀ (evs : List Ev) (s : EngineState), EngineInv s → EngineInv (run evs s) := by
  intro evs
  induction evs with
  | nil => intro s h; exact h
  | cons e evs ih => intro s h; exact ih (step e s) (inv_step e s h)

theorem inv_init (ok : Bool) : EngineInv (initState ok) := by
  refine ⟨?_, ?_, ?_, ?_, ?_, ?_⟩ <;> simp [initState]

theorem inv_run (evs : List Ev) (ok : Bool) : EngineInv (run evs (initState ok)) :=
  inv_run_aux evs (initState ok) (inv_init ok)

theorem playNote_fields (ty : MusicType) (s : EngineState) :
    (playNote ty s).currentMusicType = s.currentMusicType ∧
    (playNote ty s).bgPlaying = s.bgPlaying ∧
    (playNote ty s).now = s.now ∧
    (playNote ty s).activeOscillators = s.activeOscillators := by
  unfold playNote
  by_cases hg : (s.muted || !s.bgPlaying) = true
  · rw [if_pos hg]
    exact ⟨rfl, rfl, rfl, rfl⟩
  · rw [if_neg hg]
    cases ty with
    | lobby => simp [playGuitarPluck, addVoice]
    | suspense =>
        dsimp only
        by_cases hstep : s.bgStep % 4 = 0
        · rw [if_pos hstep]
          simp [addVoice]
        · rw [if_neg hstep]
          simp [addVoice]

theorem playNote_bgStep (ty : MusicType) (s : EngineState) (hm : s.muted = false)
    (hp : s.bgPlaying = true) : (playNote ty s).bgStep = s.bgStep + 1 := by
  unfold playNote
  rw [if_neg (by simp [hm, hp])]
  cases ty with
  | lobby => simp [playGuitarPluck, addVoice]
  | suspense =>
      dsimp only
      by_cases hstep : s.bgStep % 4 = 0
      · rw [if_pos hstep]
        simp [addVoice]
      · rw [if_neg hstep]
        simp [addVoice]

theorem playNote_suspense_step0 (s : EngineState) (hm : s.muted = false)
    (hp : s.bgPlaying = true) (hstep : s.bgStep % 4 = 0) :
    (playNote MusicType.suspense s).allVoices =
      s.allVoices ++
        [Voice.mk s.nextId Waveform.sine
           ((sequenceOf MusicType.suspense).getD
             (s.bgStep % (sequenceOf MusicType.suspense).length) 0 * 4)
           none 15 s.now (s.now + 4000) Origin.suspenseShimmer none,
         Voice.mk (s.nextId + 1) Waveform.sine
           ((sequenceOf MusicType.suspense).getD
             (s.bgStep % (sequenceOf MusicType.suspense).length) 0)
           none 50 s.now (s.now + 4000) Origin.suspenseDrone none] ∧
    (playNote MusicType.suspense s).bgOscillators = s.bgOscillators ++ [s.nextId + 1] := by
  unfold playNote
  rw [if_neg (by simp [hm, hp])]
  dsimp only
  rw [if_pos hstep]
  simp [addVoice]

/-- C3. From any reachable state where the lobby session is running and the
engine is unmuted, `startBgMusic('suspense')` fully stops the lobby session
first, then begins suspense: the resulting mode is suspense, the step cursor
was reset to 0 and then advanced once by the immediate synthesis of step 0
(so it stands at 1, independent of the old lobby cursor), the new recurring
trigger is installed with the 1500 ms suspense period, and no lobby-created
voice remains in either tracked registry. -/
theorem c3_lobby_to_suspense (evs : List Ev) (ok : Bool) (s : EngineState)
    (hs : s = run evs (initState ok)) (hp : s.bgPlaying = true)
    (hlobby : s.currentMusicType = some MusicType.lobby) (hm : s.muted = false) :
    (startBgMusic MusicType.suspense s).currentMusicType = some MusicType.suspense ∧
    (startBgMusic MusicType.suspense s).bgPlaying = true ∧
    (startBgMusic MusicType.suspense s).bgStep = 1 ∧
    (startBgMusic MusicType.suspense s).bgInterval =
      some { installedAt := s.now, period := 1500, mode := MusicType.suspense } ∧
    (∀ v ∈ (startBgMusic MusicType.suspense s).allVoices,
       (v.id ∈ (startBgMusic MusicType.suspense s).activeOscillators ∨
        v.id ∈ (startBgMusic MusicType.suspense s).bgOscillators) →
       v.origin.isLobby = false) := by
  have hinv : EngineInv s := by
    rw [hs]
    exact inv_run evs ok
  obtain ⟨h1, h2, h3, h4, h5, h6⟩ := hinv
  have ha : s.audioOk = true := h6 hp
  have hau : (stopBgMusic s).audioOk = true := by
    rw [stopBgMusic_eq]
    exact ha
  have hsame : ¬(s.bgPlaying = true ∧ s.currentMusicType = some MusicType.suspense) := by
    rintro ⟨_, hc⟩
    rw [hlobby] at hc
    cases hc
  have hform : startBgMusic MusicType.suspense s =
      { playNote MusicType.suspense (bgSetup MusicType.suspense (stopBgMusic s)) with
        bgInterval := some
          { installedAt :=
              (playNote MusicType.suspense (bgSetup MusicType.suspense (stopBgMusic s))).now,
            period := intervalOf MusicType.suspense, mode := MusicType.suspense } } := by
    unfold startBgMusic
    rw [if_neg (by simp [hm]), if_neg hsame, if_pos hp]
    simp only [caught, rawStartBg_ok MusicType.suspense (stopBgMusic s) hau]
  have hmB : (bgSetup MusicType.suspense (stopBgMusic s)).muted = false := by
    simp [bgSetup, stopBgMusic_eq, hm]
  have hpB : (bgSetup MusicType.suspense (stopBgMusic s)).bgPlaying = true := by
    simp [bgSetup]
  have hstepB : (bgSetup MusicType.suspense (stopBgMusic s)).bgStep % 4 = 0 := by
    simp [bgSetup]
  have hnowB : (bgSetup MusicType.suspense (stopBgMusic s)).now = s.now := by
    simp [bgSetup, stopBgMusic_eq]
  have hnextB : (bgSetup MusicType.suspense (stopBgMusic s)).nextId = s.nextId := by
    simp [bgSetup, stopBgMusic_eq]
  have hactB : (bgSetup MusicType.suspense (stopBgMusic s)).activeOscillators =
      s.activeOscillators := by
    simp [bgSetup, stopBgMusic_eq]
  have hbgB : (bgSetup MusicType.suspense (stopBgMusic s)).bgOscillators = [] := by
    simp [bgSetup, stopBgMusic_eq]
  have hvoicesB : (bgSetup MusicType.suspense (stopBgMusic s)).allVoices =
      stopVoices s.bgOscillators s.now s.allVoices := by
    simp [bgSetup, stopBgMusic_eq]
  have hcmtB : (bgSetup MusicType.suspense (stopBgMusic s)).currentMusicType =
      some MusicType.suspense := by
    simp [bgSetup]
  rw [hform]
  have hpf := playNote_fields MusicType.suspense (bgSetup MusicType.suspense (stopBgMusic s))
  have hps := playNote_suspense_step0 (bgSetup MusicType.suspense (stopBgMusic s)) hmB hpB hstepB
  refine ⟨?_, ?_, ?_, ?_, ?_⟩
  · dsimp only
    rw [hpf.1, hcmtB]
  · dsimp only
    rw [hpf.2.1, hpB]
  · dsimp only
    rw [playNote_bgStep MusicType.suspense _ hmB hpB]
    simp [bgSetup]
  · dsimp only
    rw [hpf.2.2.1, hnowB]
    rfl
  · intro v hv hvid
    dsimp only at hv hvid
    rw [hps.1, hvoicesB, hnextB, hnowB] at hv
    rw [hpf.2.2.2, hactB, hps.2, hbgB, hnextB] at hvid
    rcases List.mem_append.mp hv with hold | hnew
    · have hcore := @stopVoices_forall
        (fun i og => (i ∈ s.activeOscillators → og.isLobby = false) ∧ i < s.nextId)
        s.bgOscillators s.now s.allVoices (fun u hu => ⟨h2 u hu, h3 u hu⟩) v hold
      rcases hvid with hva | hvn
      · exact hcore.1 hva
      · have hvn' : v.id = s.nextId + 1 := by simpa using hvn
        have hlt := hcore.2
        exact absurd hlt (by omega)
    · rcases (by simpa using hnew :
        v = Voice.mk s.nextId Waveform.sine
          ((sequenceOf MusicType.suspense).getD
            ((bgSetup MusicType.suspense (stopBgMusic s)).bgStep %
              (sequenceOf MusicType.suspense).length) 0 * 4)
          none 15 s.now (s.now + 4000) Origin.suspenseShimmer none ∨
        v = Voice.mk (s.nextId + 1) Waveform.sine
          ((sequenceOf MusicType.suspense).getD
            ((bgSetup MusicType.suspense (stopBgMusic s)).bgStep %
              (sequenceOf MusicType.suspense).length) 0)
          none 50 s.now (s.now + 4000) Origin.suspenseDrone none) with h | h <;>
        subst h <;> rfl

/-- C3 witness: the concrete lobby-then-suspense run from the fresh state. -/
theorem c3_witness :
    (startBgMusic MusicType.suspense
      (run [Ev.evStartBg MusicType.lobby] (initState true))).currentMusicType =
        some MusicType.suspense ∧
    (startBgMusic MusicType.suspense
      (run [Ev.evStartBg MusicType.lobby] (initState true))).bgStep = 1 := by
  have h := c3_lobby_to_suspense [Ev.evStartBg MusicType.lobby] true
    (run [Ev.evStartBg MusicType.lobby] (initState true)) rfl (by decide) (by decide) (by decide)
  exact ⟨h.1, h.2.2.1⟩

/-- C7. While the mute flag is true every one-shot effect is a complete no-op
(it creates no voice and changes nothing), and in every state reachable
through the public interface plus the passage of time, being muted implies the
Active Voice Set is empty. -/
theorem c7_muted_silence :
    (∀ s : EngineState, s.muted = true →
       click s = s ∧ correct s = s ∧ wrong s = s ∧ tick s = s ∧ heartbeat s = s ∧
       lightBeep s = s ∧ goBurst s = s ∧ falseStart s = s ∧ fanfare s = s) ∧
    (∀ (evs : List Ev) (ok : Bool), (run evs (initState ok)).muted = true →
       (run evs (initState ok)).activeOscillators = []) := by
  constructor
  · intro s hm
    refine ⟨?_, ?_, ?_, ?_, ?_, ?_, ?_, ?_, ?_⟩ <;>
      simp [click, correct, wrong, tick, heartbeat, lightBeep, goBurst, falseStart, fanfare,
        osc, hm]
  · intro evs ok hm
    exact (inv_run evs ok).1 hm

/-- C7 witness: effects are no-ops in a concrete muted state, and the muted
reachable state after toggling mute has an empty Active Voice Set. -/
theorem c7_witness :
    correct ((toggleMute (initState true)).1) = (toggleMute (initState true)).1 ∧
    (run [Ev.evToggleMute] (initState true)).activeOscillators = [] := by
  have h1 := c7_muted_silence.1 ((toggleMute (initState true)).1) (by decide)
  have h2 := c7_muted_silence.2 [Ev.evToggleMute] true (by decide)
  exact ⟨h1.2.1, h2⟩
